import Mathlib

/-!
Verification development for the process-tree resource sampler and
segmented telemetry reporter of msh (src/lib/progmgr/utils.go), via a
shallow embedding: OS and library calls (gopsutil, net/http,
encoding/json, time) are abstracted into explicit environment records,
and each Go function is translated into a Lean function over them.
Floating point amounts are modelled as exact rationals, machine
integers as Int/Nat (no sampled quantity here approaches an overflow
boundary, and no claim depends on rounding).
-/

namespace Progmgr

/-- A process handle: the one field of gopsutil's process.Process that this
code ever constructs or compares is Pid (int32); the sentinel handle is
the literal struct value with Pid = -1 built at utils.go:178. -/
structure Proc where
  pid : Int
deriving DecidableEq

/-- The shape of the OS process tree as observed through Children():
each node carries its pid and the outcome of enumerating its children.
On Linux, a process with no children makes Children() return an error
whose message is "process does not have children" (noChildrenErr);
any other failure (process vanished mid-walk, permission denied) is
otherErr; success yields the child list. -/
inductive PTree where
  | ok (pid : Int) (children : List PTree)
  | noChildrenErr (pid : Int)
  | otherErr (pid : Int)

mutual

/-- treeProc (utils.go:170-186). Mirrors the source exactly:
children, err := proc.Children(); if err != nil and the error message
differs from "process does not have children" the function returns the
singleton list holding proc itself; if err != nil and the message is
exactly "process does not have children" it returns the singleton
sentinel with Pid = -1; on success it returns proc followed by the
concatenated recursive walks of the children, in OS order. -/
def treeProc : PTree → List Proc
  | .otherErr pid => [⟨pid⟩]
  | .noChildrenErr _ => [⟨-1⟩]
  | .ok pid children => ⟨pid⟩ :: treeProcChildren children

/-- The append loop of treeProc (utils.go:182-184): tree is extended by
the recursive walk of each child in order. -/
def treeProcChildren : List PTree → List Proc
  | [] => []
  | child :: rest => treeProc child ++ treeProcChildren rest

end

/-- The per-segment accumulator sgm.stats read by this code (seconds,
secondsHibe, cpuUsage, memUsage, playerSec); counters as naturals,
usage percentages as exact rationals. -/
structure SegmentStats where
  seconds : Nat
  secondsHibe : Nat
  cpuUsage : Rat
  memUsage : Rat
  playerSec : Nat
deriving DecidableEq

/-- Environment for getMshTreeStats: the outcome of
process.NewProcess(int32(os.Getpid())) (none on error, otherwise the
observed tree rooted at the msh process), and the outcomes of
CPUPercent / MemoryPercent keyed by pid (none models a query error;
querying the sentinel pid -1 fails, which callers encode by mapping -1
to none). -/
structure SampleEnv where
  root : Option PTree
  cpuPercent : Int → Option Rat
  memPercent : Int → Option Rat

/-- The range-loop body of getMshTreeStats (utils.go:152-163), threading
the (never written) sgm.stats record explicitly: for each process c,
query CPUPercent; on error return the stored averages, else query
MemoryPercent; on error return the stored averages, else add both to the
accumulators and continue. -/
def getMshTreeStatsLoop (env : SampleEnv) (stats : SegmentStats) :
    List Proc → Rat → Rat → (Rat × Rat) × SegmentStats
  | [], mshTreeCpu, mshTreeMem => ((mshTreeCpu, mshTreeMem), stats)
  | c :: rest, mshTreeCpu, mshTreeMem =>
    match env.cpuPercent c.pid with
    | none => ((stats.cpuUsage, stats.memUsage), stats)
    | some pCpu =>
      match env.memPercent c.pid with
      | none => ((stats.cpuUsage, stats.memUsage), stats)
      | some pMem => getMshTreeStatsLoop env stats rest (mshTreeCpu + pCpu) (mshTreeMem + pMem)

/-- getMshTreeStats (utils.go:145-167): accumulators start at 0; if
resolving the msh root process fails, return the stored averages,
otherwise run the loop over treeProc(mshProc). The second component is
the sgm.stats state after the call (the function only reads it). -/
def getMshTreeStats (env : SampleEnv) (stats : SegmentStats) :
    (Rat × Rat) × SegmentStats :=
  match env.root with
  | none => ((stats.cpuUsage, stats.memUsage), stats)
  | some mshProc => getMshTreeStatsLoop env stats (treeProc mshProc) 0 0

/-- One entry of the slice returned by cpu.Info(); the code reads only
ModelName, Model and VendorID of entry 0. -/
structure CpuInfoStat where
  modelName : String
  model : String
  vendorID : String

/-- The configuration and collaborator values read by buildApi2Req
(config.ConfigRuntime, config.Javav, servctrl.TermUpTime, MshVersion). -/
structure MshConfig where
  mshID : String
  allowSuspend : Bool
  javav : String
  serverVersion : String
  serverProtocol : String
  mshVersion : String
  termUpTime : Int

/-- Environment for buildApi2Req: outcomes of the host-introspection
calls (none models an error return), the runtime facts, and the elapsed
seconds since msh.startTime. Go's time.Since reads the monotonic clock,
so the elapsed duration is modelled as a natural number of seconds. -/
structure BuildEnv where
  cpuInfo : Option CpuInfoStat
  cpuCounts : Option Int
  virtualMemoryTotal : Option Nat
  numCPU : Nat
  goos : String
  goarch : String
  elapsedSec : Nat
  cfg : MshConfig

/-- The Msh.Sgm section of model.Api2Req. -/
structure SgmSection where
  seconds : Nat
  secondsHibe : Nat
  cpuUsage : Rat
  memUsage : Rat
  playerSec : Nat
  preTerm : Bool
deriving DecidableEq

/-- The Msh section of model.Api2Req. -/
structure MshSection where
  id : String
  mshv : String
  uptime : Int
  allowSuspend : Bool
  sgm : SgmSection
deriving DecidableEq

/-- The Machine section of model.Api2Req. -/
structure MachineSection where
  os : String
  arch : String
  javav : String
  cpuModel : String
  cpuVendor : String
  coresMsh : Nat
  coresSys : Int
  mem : Int
deriving DecidableEq

/-- The Server section of model.Api2Req. -/
structure ServerSection where
  uptime : Int
  msv : String
  msProt : String
deriving DecidableEq

/-- model.Api2Req, the telemetry request payload. -/
structure Api2Req where
  protv : Nat
  msh : MshSection
  machine : MachineSection
  server : ServerSection
deriving DecidableEq

/-- Modelled from the spec: the declaration of protv is not among the
given sources (only its use at utils.go:27); the spec describes it as
the fixed telemetry protocol version constant, an integer. Its concrete
value is irrelevant to every claim. -/
def protv : Nat := 2

/-- buildApi2Req (utils.go:24-80). Assembles the request: protocol
version constant; Msh section from config, version, elapsed uptime and
the sgm.stats snapshot plus the preTerm flag; Machine section from
runtime facts and the three fallible host lookups (cpu.Info error gives
empty CpuModel and CpuVendor, otherwise ModelName with fallback to
Model when ModelName is empty, and VendorID; cpu.Counts error gives
CoresSys = -1; mem.VirtualMemory error gives Mem = -1); Server section
from the server controller and config. The Go function has no error
return: it always produces a complete request. -/
def buildApi2Req (env : BuildEnv) (stats : SegmentStats) (preTerm : Bool) : Api2Req :=
  let cpuModelVendor : String × String :=
    match env.cpuInfo with
    | none => ("", "")
    | some info =>
      ((if info.modelName = "" then info.model else info.modelName), info.vendorID)
  let coresSys : Int :=
    match env.cpuCounts with
    | none => -1
    | some cores => cores
  let memTotal : Int :=
    match env.virtualMemoryTotal with
    | none => -1
    | some total => (total : Int)
  { protv := protv
    msh := { id := env.cfg.mshID
             mshv := env.cfg.mshVersion
             uptime := (env.elapsedSec : Int)
             allowSuspend := env.cfg.allowSuspend
             sgm := { seconds := stats.seconds
                      secondsHibe := stats.secondsHibe
                      cpuUsage := stats.cpuUsage
                      memUsage := stats.memUsage
                      playerSec := stats.playerSec
                      preTerm := preTerm } }
    machine := { os := env.goos
                 arch := env.goarch
                 javav := env.cfg.javav
                 cpuModel := cpuModelVendor.1
                 cpuVendor := cpuModelVendor.2
                 coresMsh := env.numCPU
                 coresSys := coresSys
                 mem := memTotal }
    server := { uptime := env.cfg.termUpTime
                msv := env.cfg.serverVersion
                msProt := env.cfg.serverProtocol } }

/-- An http.Response as consumed by readApi2Res: all that code reads is
the body, through ioutil.ReadAll, whose outcome (bytes or a read error)
is recorded here. -/
structure HttpRes where
  bodyRead : Except String (List UInt8)

/-- The observable steps of sendApi2Req, in execution order: the
json.Marshal call, the http.NewRequest construction, the client.Do
exchange, and the deferred ReqSent notification publish. -/
inductive SendEvent where
  | marshalReq
  | newRequest
  | httpExchange
  | reqSentNotify
deriving DecidableEq

/-- Environment for sendApi2Req: outcomes of json.Marshal(api2req)
(none on error, otherwise the request bytes), http.NewRequest (none on
error), and client.Do under the 4-second-timeout client (none on
transport error or timeout, otherwise the response). -/
structure SendEnv where
  marshal : Option (List UInt8)
  newRequest : Option Unit
  doResult : Option HttpRes

/-- The body of sendApi2Req after the defer statement (utils.go:92-118):
marshal the request (error returns nil and an error value), build the
http request (error returns), execute it (error returns), else return
the response. The event list records the steps performed on that path. -/
def sendApi2ReqBody (env : SendEnv) : Except String HttpRes × List SendEvent :=
  match env.marshal with
  | none => (.error "marshal failed", [.marshalReq])
  | some _ =>
    match env.newRequest with
    | none => (.error "new request failed", [.marshalReq, .newRequest])
    | some _ =>
      match env.doResult with
      | none => (.error "exchange failed", [.marshalReq, .newRequest, .httpExchange])
      | some res => (.ok res, [.marshalReq, .newRequest, .httpExchange])

/-- sendApi2Req (utils.go:83-119): the function opens with
defer { select { case ReqSent <- true: default: } }, so by Go defer
semantics the notification publish runs after the body has chosen its
return value, on every return path; it is appended as the final event. -/
def sendApi2Req (env : SendEnv) : Except String HttpRes × List SendEvent :=
  let bodyRun := sendApi2ReqBody env
  (bodyRun.1, bodyRun.2 ++ [.reqSentNotify])

/-- model.Api2Res, the telemetry response payload; its shape is owned by
the remote collector and opaque to this code, which only passes it on. -/
structure Api2Res where
  payload : List (String × String)
deriving DecidableEq

/-- Environment for readApi2Res: the outcome of
json.Unmarshal(resByte, &resJson) on given body bytes (error, or the
decoded response). -/
structure ReadEnv where
  unmarshal : List UInt8 → Except String Api2Res

/-- readApi2Res (utils.go:122-142): defer res.Body.Close() runs on every
return path, recorded by the Boolean second component; the body bytes
are read (error returns nil result and an error), then unmarshalled
(error returns nil result and an error), else the decoded response is
returned. -/
def readApi2Res (env : ReadEnv) (res : HttpRes) : Except String Api2Res × Bool :=
  let result : Except String Api2Res :=
    match res.bodyRead with
    | .error e => .error e
    | .ok resByte =>
      match env.unmarshal resByte with
      | .error e => .error e
      | .ok resJson => .ok resJson
  (result, true)

/-- Modelled from the spec: the declaration of the ReqSent channel is
not among the given sources (only the select statement at
utils.go:85-90 that publishes on it). The spec describes it as a
single-slot "request sent" signal whose publish either hands the value
to a ready consumer or is silently dropped; its state is whether a
consumer is currently ready to receive. -/
structure ReqSentChan where
  consumerReady : Bool
deriving DecidableEq

/-- Possible outcomes of a channel send: handed to a ready consumer,
dropped by the select default branch, or blocked waiting (what a bare
send would do with no ready consumer; the select with default never
produces it). -/
inductive SendOutcome where
  | delivered
  | dropped
  | blocked
deriving DecidableEq

/-- The publish step select { case ReqSent <- true: default: }
(utils.go:86-89) over the modelled signal state: if a consumer is ready
the send case fires and the value is handed over; otherwise the default
branch is taken at once and the notification is dropped. Being a total
function of the state, it returns on every state and never produces the
blocked outcome. -/
def trySelectSend (s : ReqSentChan) : ReqSentChan × SendOutcome :=
  if s.consumerReady then ({ consumerReady := false }, .delivered)
  else (s, .dropped)

/-! Concrete fixtures used by the witnesses. -/

/-- The segment snapshot of the end-to-end scenario:
seconds 120, secondsHibe 30, cpuUsage 12.5, memUsage 8.0, playerSec 90. -/
def statsA : SegmentStats := ⟨120, 30, 25/2, 8, 90⟩

/-- A sampling environment whose tree walk contains the sentinel handle
(the child process has no children, so the inverted branch of treeProc
emits pid -1) and whose per-process queries fail exactly on pid -1. -/
def envFail : SampleEnv :=
  ⟨some (.ok 10 [.noChildrenErr 11]),
   fun pid => if pid = -1 then none else some 1,
   fun pid => if pid = -1 then none else some 1⟩

/-- A sampling environment where every query succeeds: a root with one
child, CPU percent 3 and memory percent 5 for every process. -/
def envOk : SampleEnv :=
  ⟨some (.ok 1 [.ok 2 []]), fun _ => some 3, fun _ => some 5⟩

/-- A build environment where all three host-introspection calls fail. -/
def envHostFail : BuildEnv :=
  ⟨none, none, none, 4, "linux", "amd64", 100,
   ⟨"msh-id", true, "17.0.2", "1.19.4", "762", "v2.4.9", 55⟩⟩

/-- A response whose body read fails, and a read environment whose
deserialization fails on any bytes. -/
def resReadErr : HttpRes := ⟨.error "connection reset"⟩

/-- A read environment whose json.Unmarshal outcome is an error on any
input bytes. -/
def envParseErr : ReadEnv := ⟨fun _ => .error "invalid json"⟩

/-! Helper lemmas about the sampling loop, shared by several claims. -/

/-- The sampling loop never writes sgm.stats: the state it returns is the
state it was given, on every path. -/
theorem getMshTreeStatsLoop_stats (env : SampleEnv) (stats : SegmentStats) :
    ∀ (l : List Proc) (cpuAcc memAcc : Rat),
      (getMshTreeStatsLoop env stats l cpuAcc memAcc).2 = stats := by
  intro l
  induction l with
  | nil => intro cpuAcc memAcc; rfl
  | cons c rest ih =>
    intro cpuAcc memAcc
    simp only [getMshTreeStatsLoop]
    cases env.cpuPercent c.pid with
    | none => rfl
    | some pCpu =>
      cases env.memPercent c.pid with
      | none => rfl
      | some pMem => exact ih _ _

/-- If some process in the list has a failing CPU or memory query, the
loop abandons the sample and returns the stored averages, whatever the
accumulators hold. -/
theorem getMshTreeStatsLoop_fail (env : SampleEnv) (stats : SegmentStats) :
    ∀ (l : List Proc) (cpuAcc memAcc : Rat),
      (∃ p ∈ l, env.cpuPercent p.pid = none ∨ env.memPercent p.pid = none) →
      (getMshTreeStatsLoop env stats l cpuAcc memAcc).1
        = (stats.cpuUsage, stats.memUsage) := by
  intro l
  induction l with
  | nil =>
    intro cpuAcc memAcc h
    rcases h with ⟨p, hp, _⟩
    cases hp
  | cons c rest ih =>
    intro cpuAcc memAcc h
    simp only [getMshTreeStatsLoop]
    cases hcpu : env.cpuPercent c.pid with
    | none => rfl
    | some pCpu =>
      cases hmem : env.memPercent c.pid with
      | none => rfl
      | some pMem =>
        apply ih
        rcases h with ⟨p, hp, hfail⟩
        rcases List.mem_cons.mp hp with rfl | hrest
        · rcases hfail with h1 | h1
          · rw [hcpu] at h1; cases h1
          · rw [hmem] at h1; cases h1
        · exact ⟨p, hrest, hfail⟩

/-- If every query on the list succeeds, the loop returns the
accumulators plus the sums of the queried values. -/
theorem getMshTreeStatsLoop_ok (env : SampleEnv) (stats : SegmentStats)
    (fc fm : Proc → Rat) :
    ∀ (l : List Proc) (cpuAcc memAcc : Rat),
      (∀ p ∈ l, env.cpuPercent p.pid = some (fc p)) →
      (∀ p ∈ l, env.memPercent p.pid = some (fm p)) →
      (getMshTreeStatsLoop env stats l cpuAcc memAcc).1
        = (cpuAcc + (l.map fc).sum, memAcc + (l.map fm).sum) := by
  intro l
  induction l with
  | nil => intro cpuAcc memAcc _ _; simp [getMshTreeStatsLoop]
  | cons c rest ih =>
    intro cpuAcc memAcc hc hm
    simp only [getMshTreeStatsLoop]
    rw [hc c (List.mem_cons_self c rest), hm c (List.mem_cons_self c rest)]
    rw [ih _ _ (fun p hp => hc p (List.mem_cons_of_mem c hp))
      (fun p hp => hm p (List.mem_cons_of_mem c hp))]
    simp [add_assoc]

/-! The claims. -/

/-- C1: the claim states that a no-children enumeration failure makes the
walk emit the node itself and that any other enumeration failure makes it
emit the sentinel (identifier -1). The code does the opposite: the guard
at utils.go:174 is inverted, so the benign no-children error produces the
sentinel and every other error produces the node itself. This theorem
evaluates treeProc on both failing nodes, exhibiting the divergence. -/
theorem treeProc_error_branches_swapped :
    treeProc (.noChildrenErr 42) = [⟨-1⟩] ∧ treeProc (.otherErr 42) = [⟨42⟩] := by
  constructor <;> simp [treeProc]

/-- C2: the claim states that the walk always returns a non-empty
sequence whose first element is the root, including for a root with no
children. On Linux a childless root makes Children() fail with the
no-children error, and the inverted branch of treeProc then returns the
singleton sentinel list: the first element is the sentinel, not the
root. This theorem evaluates that failing input. -/
theorem treeProc_childless_root_not_root_first :
    treeProc (.noChildrenErr 7) = [⟨-1⟩] ∧
    (treeProc (.noChildrenErr 7)).head? ≠ some ⟨7⟩ := by
  constructor <;> simp [treeProc]

/-- C3: if resolving the root process fails, or any per-process CPU or
memory query over the walked tree fails (the sentinel pid -1 included),
getMshTreeStats returns exactly the (cpuUsage, memUsage) pair stored in
sgm.stats before the call, never zero and never a partial sum. -/
theorem getMshTreeStats_failure_returns_stored (env : SampleEnv) (stats : SegmentStats)
    (h : env.root = none ∨ ∃ t, env.root = some t ∧ ∃ p ∈ treeProc t,
      env.cpuPercent p.pid = none ∨ env.memPercent p.pid = none) :
    (getMshTreeStats env stats).1 = (stats.cpuUsage, stats.memUsage) := by
  rcases h with h | ⟨t, ht, hfail⟩
  · simp [getMshTreeStats, h]
  · simp only [getMshTreeStats, ht]
    exact getMshTreeStatsLoop_fail env stats _ 0 0 hfail

/-- Witness for C3: in envFail the walk contains the sentinel pid -1,
whose queries fail, and the sample comes back as the stored averages. -/
theorem getMshTreeStats_failure_returns_stored_witness :
    (getMshTreeStats envFail statsA).1 = (statsA.cpuUsage, statsA.memUsage) :=
  getMshTreeStats_failure_returns_stored envFail statsA
    (Or.inr ⟨.ok 10 [.noChildrenErr 11], rfl,
      ⟨⟨-1⟩, by simp [treeProc, treeProcChildren, envFail], Or.inl (by simp [envFail])⟩⟩)

/-- C4: the ReqSent publish is the last event of sendApi2Req on every
path: it is present exactly once, at the very end of the trace, so it
fires on the serialization-failure and request-construction-failure
paths too, and whenever the HTTP exchange happens it strictly precedes
the publish. -/
theorem sendApi2Req_notify_last_on_every_path (env : SendEnv) :
    (sendApi2Req env).2.getLast? = some SendEvent.reqSentNotify ∧
    SendEvent.reqSentNotify ∉ (sendApi2Req env).2.dropLast ∧
    (SendEvent.httpExchange ∈ (sendApi2Req env).2 →
      SendEvent.httpExchange ∈ (sendApi2Req env).2.dropLast) := by
  rcases env with ⟨m, n, d⟩
  cases m <;> cases n <;> cases d <;>
    simp [sendApi2Req, sendApi2ReqBody]

/-- Witness for C4, on the serialization-failure path: the trace still
ends with the publish event. -/
theorem sendApi2Req_notify_last_witness :
    (sendApi2Req ⟨none, none, none⟩).2.getLast? = some SendEvent.reqSentNotify :=
  (sendApi2Req_notify_last_on_every_path ⟨none, none, none⟩).1

/-- C5: buildApi2Req always returns a complete request (it is a total
function with no error return); when cpu.Info fails the CpuModel and
CpuVendor fields are empty strings, when cpu.Counts fails CoresSys is
-1, and when mem.VirtualMemory fails Mem is -1. -/
theorem buildApi2Req_sentinel_defaults (env : BuildEnv) (stats : SegmentStats)
    (preTerm : Bool) :
    (env.cpuInfo = none →
      (buildApi2Req env stats preTerm).machine.cpuModel = "" ∧
      (buildApi2Req env stats preTerm).machine.cpuVendor = "") ∧
    (env.cpuCounts = none → (buildApi2Req env stats preTerm).machine.coresSys = -1) ∧
    (env.virtualMemoryTotal = none → (buildApi2Req env stats preTerm).machine.mem = -1) := by
  refine ⟨fun h => ?_, fun h => ?_, fun h => ?_⟩ <;> simp [buildApi2Req, h]

/-- Witness for C5: with every host lookup failing, the build still
produces a request carrying all three sentinels. -/
theorem buildApi2Req_sentinel_defaults_witness :
    (buildApi2Req envHostFail statsA false).machine.cpuModel = "" ∧
    (buildApi2Req envHostFail statsA false).machine.cpuVendor = "" ∧
    (buildApi2Req envHostFail statsA false).machine.coresSys = -1 ∧
    (buildApi2Req envHostFail statsA false).machine.mem = -1 :=
  ⟨((buildApi2Req_sentinel_defaults envHostFail statsA false).1 rfl).1,
   ((buildApi2Req_sentinel_defaults envHostFail statsA false).1 rfl).2,
   (buildApi2Req_sentinel_defaults envHostFail statsA false).2.1 rfl,
   (buildApi2Req_sentinel_defaults envHostFail statsA false).2.2 rfl⟩

/-- C6: for every segment snapshot and preTerm flag, buildApi2Req embeds
the five sgm.stats fields unchanged into the Msh.Sgm section together
with the given preTerm flag, a non-negative uptime, and the fixed
protocol version constant. -/
theorem buildApi2Req_embeds_segment_stats (env : BuildEnv) (stats : SegmentStats)
    (preTerm : Bool) :
    (buildApi2Req env stats preTerm).msh.sgm.seconds = stats.seconds ∧
    (buildApi2Req env stats preTerm).msh.sgm.secondsHibe = stats.secondsHibe ∧
    (buildApi2Req env stats preTerm).msh.sgm.cpuUsage = stats.cpuUsage ∧
    (buildApi2Req env stats preTerm).msh.sgm.memUsage = stats.memUsage ∧
    (buildApi2Req env stats preTerm).msh.sgm.playerSec = stats.playerSec ∧
    (buildApi2Req env stats preTerm).msh.sgm.preTerm = preTerm ∧
    0 ≤ (buildApi2Req env stats preTerm).msh.uptime ∧
    (buildApi2Req env stats preTerm).protv = protv :=
  ⟨rfl, rfl, rfl, rfl, rfl, rfl, Int.natCast_nonneg _, rfl⟩

/-- Witness for C6, the end-to-end scenario of the spec: the snapshot
statsA (seconds 120, secondsHibe 30, cpuUsage 12.5, memUsage 8.0,
playerSec 90) with preTerm false round-trips into the request. -/
theorem buildApi2Req_embeds_segment_stats_witness :
    (buildApi2Req envHostFail statsA false).msh.sgm.seconds = 120 ∧
    (buildApi2Req envHostFail statsA false).msh.sgm.cpuUsage = 25/2 ∧
    0 ≤ (buildApi2Req envHostFail statsA false).msh.uptime := by
  have h := buildApi2Req_embeds_segment_stats envHostFail statsA false
  exact ⟨h.1, h.2.2.1, h.2.2.2.2.2.2.1⟩

/-- C7: when every per-process CPU and memory query succeeds,
getMshTreeStats returns the sum of the CPU percentages and the sum of
the memory percentages over every handle of the tree walk, starting
from zero accumulators (totals, not averages). -/
theorem getMshTreeStats_success_sums (env : SampleEnv) (stats : SegmentStats)
    (t : PTree) (fc fm : Proc → Rat)
    (hroot : env.root = some t)
    (hc : ∀ p ∈ treeProc t, env.cpuPercent p.pid = some (fc p))
    (hm : ∀ p ∈ treeProc t, env.memPercent p.pid = some (fm p)) :
    (getMshTreeStats env stats).1
      = (((treeProc t).map fc).sum, ((treeProc t).map fm).sum) := by
  simp only [getMshTreeStats, hroot]
  rw [getMshTreeStatsLoop_ok env stats fc fm _ 0 0 hc hm]
  simp

/-- Witness for C7: a two-process tree with CPU 3 and memory 5 per
process samples to the totals (6, 10). -/
theorem getMshTreeStats_success_sums_witness :
    (getMshTreeStats envOk statsA).1 = (6, 10) := by
  have h := getMshTreeStats_success_sums envOk statsA (.ok 1 [.ok 2 []])
    (fun _ => 3) (fun _ => 5) rfl (fun p _ => rfl) (fun p _ => rfl)
  rw [h]
  norm_num [treeProc, treeProcChildren]

/-- C8: the publish over the modelled single-slot ReqSent signal is a
total function of the signal state that, on every state, either delivers
to a ready consumer or drops the notification; it never yields the
blocked outcome a bare channel send could. -/
theorem trySelectSend_never_blocks (s : ReqSentChan) :
    (trySelectSend s).2 ≠ SendOutcome.blocked ∧
    ((trySelectSend s).2 = SendOutcome.delivered ∨
      (trySelectSend s).2 = SendOutcome.dropped) ∧
    ((trySelectSend s).2 = SendOutcome.delivered ↔ s.consumerReady = true) := by
  rcases s with ⟨b⟩
  cases b <;> simp [trySelectSend]

/-- Witness for C8: with no consumer ready the publish returns the
dropped outcome rather than blocking. -/
theorem trySelectSend_never_blocks_witness :
    (trySelectSend ⟨false⟩).2 ≠ SendOutcome.blocked :=
  (trySelectSend_never_blocks ⟨false⟩).1

/-- C9: readApi2Res marks the body closed on every exit path, and its
result is all-or-nothing: a body-read error yields exactly that error, a
deserialization error yields exactly that error, and otherwise the fully
decoded response is returned; no partial response exists. -/
theorem readApi2Res_total_and_closes_body (env : ReadEnv) (res : HttpRes) :
    (readApi2Res env res).2 = true ∧
    (∀ e, res.bodyRead = .error e → (readApi2Res env res).1 = .error e) ∧
    (∀ b e, res.bodyRead = .ok b → env.unmarshal b = .error e →
      (readApi2Res env res).1 = .error e) ∧
    (∀ b r, res.bodyRead = .ok b → env.unmarshal b = .ok r →
      (readApi2Res env res).1 = .ok r) := by
  refine ⟨rfl, ?_, ?_, ?_⟩
  · intro e he; simp [readApi2Res, he]
  · intro b e hb hu; simp [readApi2Res, hb, hu]
  · intro b r hb hu; simp [readApi2Res, hb, hu]

/-- Witness for C9: a failed body read yields that error and the body is
still closed. -/
theorem readApi2Res_total_and_closes_body_witness :
    (readApi2Res envParseErr resReadErr).2 = true ∧
    (readApi2Res envParseErr resReadErr).1 = .error "connection reset" :=
  ⟨(readApi2Res_total_and_closes_body envParseErr resReadErr).1,
   (readApi2Res_total_and_closes_body envParseErr resReadErr).2.1
     "connection reset" rfl⟩

/-- C10: getMshTreeStats never writes sgm.stats: on every environment
and every starting snapshot, success or failure, the SegmentStats record
after the call is the record before it, all five fields included. -/
theorem getMshTreeStats_preserves_stats (env : SampleEnv) (stats : SegmentStats) :
    (getMshTreeStats env stats).2 = stats := by
  unfold getMshTreeStats
  cases env.root with
  | none => rfl
  | some t => exact getMshTreeStatsLoop_stats env stats (treeProc t) 0 0

/-- Witness for C10: the failing environment leaves statsA untouched. -/
theorem getMshTreeStats_preserves_stats_witness :
    (getMshTreeStats envFail statsA).2 = statsA :=
  getMshTreeStats_preserves_stats envFail statsA

end Progmgr
